import Mathlib

/-!
Verification of the herr-ober health-driven route controller.

The controller (spec sections 2-4) is a single-threaded pipeline:
HealthProbe -> DebounceStateMachine -> RouteAnnouncer, driven by a
ControlLoop.  The `ober` package implementing it is not shipped under
src/ (only its tests are), so the components below are modelled from
the specification text, checked for consistency with the tests in
src/tests/test_commands.py and src/tests/test_config.py.
-/

namespace HerrOber

/-- Route advertisement state (spec section 3): exactly one of the two
values holds at any instant. -/
inductive RouteState where
  | withdrawn
  | announced
deriving DecidableEq

/-- Per-route debounce state: the advertised route state together with
the DebounceCounters {consecutive_successes, consecutive_failures}. -/
structure DebounceState where
  route : RouteState
  consecutive_successes : Nat
  consecutive_failures : Nat
deriving DecidableEq

/-- Initial per-route state: WITHDRAWN with both counters at zero
(fail-safe: never advertise a route before health is confirmed). -/
def initialState : DebounceState :=
  { route := .withdrawn, consecutive_successes := 0, consecutive_failures := 0 }

/-- Modelled from the spec: one tick of the DebounceStateMachine
(section 4.2); the ober implementation module is absent from src/.
On a success result: increment consecutive_successes, zero
consecutive_failures, and transition WITHDRAWN -> ANNOUNCED once the
updated counter reaches success_threshold `s`.  On a failure result:
increment consecutive_failures, zero consecutive_successes, and
transition ANNOUNCED -> WITHDRAWN once the updated counter reaches
failure_threshold `f`.  Otherwise the state is unchanged. -/
def tick (s f : Nat) (st : DebounceState) (r : Bool) : DebounceState :=
  if r then
    { route := if st.route = .withdrawn ∧ s ≤ st.consecutive_successes + 1
        then .announced else st.route
      consecutive_successes := st.consecutive_successes + 1
      consecutive_failures := 0 }
  else
    { route := if st.route = .announced ∧ f ≤ st.consecutive_failures + 1
        then .withdrawn else st.route
      consecutive_successes := 0
      consecutive_failures := st.consecutive_failures + 1 }

/-- State of one route after feeding a whole trace of probe results
(`true` = success, `false` = failure) tick by tick from the initial
state. -/
def run (s f : Nat) (t : List Bool) : DebounceState :=
  t.foldl (tick s f) initialState

theorem run_nil (s f : Nat) : run s f [] = initialState := rfl

theorem run_append_singleton (s f : Nat) (t : List Bool) (r : Bool) :
    run s f (t ++ [r]) = tick s f (run s f t) r := by
  simp [run, List.foldl_append]

/-- Length of the trailing run of successes in a trace (the run of
`true` results since the last failure). -/
def trailTrue (t : List Bool) : Nat :=
  t.foldl (fun n r => if r then n + 1 else 0) 0

/-- Scan computing simultaneously the trailing run of failures and the
longest run of failures anywhere in the trace. -/
def failScan (t : List Bool) : Nat × Nat :=
  t.foldl (fun p r => if r then (0, p.2) else (p.1 + 1, max p.2 (p.1 + 1))) (0, 0)

/-- Length of the trailing run of failures in a trace. -/
def trailFalse (t : List Bool) : Nat := (failScan t).1

/-- Length of the longest run of consecutive failures in a trace. -/
def maxFailRun (t : List Bool) : Nat := (failScan t).2

theorem trailTrue_append_singleton (t : List Bool) (r : Bool) :
    trailTrue (t ++ [r]) = if r then trailTrue t + 1 else 0 := by
  simp [trailTrue, List.foldl_append]

theorem failScan_append_singleton (t : List Bool) (r : Bool) :
    failScan (t ++ [r]) =
      if r then (0, (failScan t).2)
      else ((failScan t).1 + 1, max (failScan t).2 ((failScan t).1 + 1)) := by
  simp [failScan, List.foldl_append]

theorem trailFalse_append_singleton (t : List Bool) (r : Bool) :
    trailFalse (t ++ [r]) = if r then 0 else trailFalse t + 1 := by
  cases r <;> simp [trailFalse, failScan_append_singleton]

theorem maxFailRun_append_singleton (t : List Bool) (r : Bool) :
    maxFailRun (t ++ [r]) =
      if r then maxFailRun t else max (maxFailRun t) (trailFalse t + 1) := by
  cases r <;> simp [maxFailRun, trailFalse, failScan_append_singleton]

/-- The consecutive_successes counter equals the length of the trailing
run of successes. -/
theorem run_consecutive_successes (s f : Nat) (t : List Bool) :
    (run s f t).consecutive_successes = trailTrue t := by
  induction t using List.reverseRecOn with
  | nil => rfl
  | append_singleton t r ih =>
      rw [run_append_singleton, trailTrue_append_singleton]
      cases r <;> simp [tick, ih]

/-- The consecutive_failures counter equals the length of the trailing
run of failures. -/
theorem run_consecutive_failures (s f : Nat) (t : List Bool) :
    (run s f t).consecutive_failures = trailFalse t := by
  induction t using List.reverseRecOn with
  | nil => rfl
  | append_singleton t r ih =>
      rw [run_append_singleton, trailFalse_append_singleton]
      cases r <;> simp [tick, ih]

/-- Kind of a route command written to the BGP speaker's command
channel. -/
inductive CmdKind where
  | announce
  | withdraw
deriving DecidableEq

/-- Modelled from the spec: the command (if any) emitted by the
RouteAnnouncer on one tick (sections 4.3 and 4.4); the ober
implementation module is absent from src/.  The announcer is called
only when the DebounceStateMachine reports an actual transition, so a
command is produced exactly on a state change. -/
def tickCmd (s f : Nat) (st : DebounceState) (r : Bool) : Option CmdKind :=
  if st.route = .withdrawn ∧ (tick s f st r).route = .announced then some .announce
  else if st.route = .announced ∧ (tick s f st r).route = .withdrawn then some .withdraw
  else none

/-- Commands emitted over a whole trace, tagged with the 1-based tick
number at which each was emitted. -/
def runCmdsAux (s f : Nat) : DebounceState → Nat → List Bool → List (Nat × CmdKind)
  | _, _, [] => []
  | st, n, r :: rest =>
    match tickCmd s f st r with
    | some k => (n, k) :: runCmdsAux s f (tick s f st r) (n + 1) rest
    | none => runCmdsAux s f (tick s f st r) (n + 1) rest

/-- Commands emitted by a route over a whole trace starting from the
initial state, with 1-based tick numbers. -/
def runCmds (s f : Nat) (t : List Bool) : List (Nat × CmdKind) :=
  runCmdsAux s f initialState 1 t

theorem trailFalse_eq_zero_of_trailTrue_pos (t : List Bool) (h : 1 ≤ trailTrue t) :
    trailFalse t = 0 := by
  induction t using List.reverseRecOn with
  | nil => rfl
  | append_singleton t r ih =>
      rw [trailTrue_append_singleton] at h
      rw [trailFalse_append_singleton]
      cases r with
      | false => simp at h
      | true => simp

theorem trailFalse_append_of_trailFalse_eq_zero (p q : List Bool)
    (h : trailFalse p = 0) : trailFalse (p ++ q) = trailFalse q := by
  induction q using List.reverseRecOn with
  | nil => simpa using h
  | append_singleton q r ih =>
      rw [← List.append_assoc, trailFalse_append_singleton,
        trailFalse_append_singleton]
      cases r <;> simp [ih]

theorem maxFailRun_le_append_singleton (q : List Bool) (r : Bool) :
    maxFailRun q ≤ maxFailRun (q ++ [r]) := by
  rw [maxFailRun_append_singleton]
  cases r <;> simp

theorem trailFalse_lt_of_maxFailRun_lt (q : List Bool) (f : Nat)
    (h : maxFailRun (q ++ [false]) < f) : trailFalse q + 1 < f := by
  rw [maxFailRun_append_singleton] at h
  simp only [Bool.false_eq_true, if_false] at h
  omega

/-- Modelled from the spec: the invariant claimed in section 3, read
literally — the route is ANNOUNCED iff the consecutive_successes
counter reached success_threshold after some prefix of the trace and
no failure result has been observed since. -/
def AnnouncedLiteral (s f : Nat) (t : List Bool) : Prop :=
  ∃ i ∈ List.range (t.length + 1),
    s ≤ (run s f (t.take i)).consecutive_successes ∧
    (t.drop i).all (fun b => b) = true

/-- Corrected characterisation of the ANNOUNCED state: the
consecutive_successes counter reached success_threshold after some
prefix of the trace and no run of failure_threshold consecutive
failures has occurred since. -/
def AnnouncedSpec (s f : Nat) (t : List Bool) : Prop :=
  ∃ i ∈ List.range (t.length + 1),
    s ≤ (run s f (t.take i)).consecutive_successes ∧
    maxFailRun (t.drop i) < f

instance (s f : Nat) (t : List Bool) : Decidable (AnnouncedLiteral s f t) :=
  List.decidableBEx _ _

instance (s f : Nat) (t : List Bool) : Decidable (AnnouncedSpec s f t) :=
  List.decidableBEx _ _

/-- `AnnouncedSpec` phrased with the trailing-success-run function
instead of the machine's counter (they agree by
`run_consecutive_successes`). -/
theorem announcedSpec_iff_trailTrue (s f : Nat) (t : List Bool) :
    AnnouncedSpec s f t ↔
      ∃ i, i ≤ t.length ∧ s ≤ trailTrue (t.take i) ∧ maxFailRun (t.drop i) < f := by
  unfold AnnouncedSpec
  constructor
  · rintro ⟨i, hi, hcs, hmax⟩
    rw [List.mem_range, Nat.lt_succ_iff] at hi
    rw [run_consecutive_successes] at hcs
    exact ⟨i, hi, hcs, hmax⟩
  · rintro ⟨i, hi, hcs, hmax⟩
    refine ⟨i, ?_, ?_, hmax⟩
    · rw [List.mem_range, Nat.lt_succ_iff]; exact hi
    · rw [run_consecutive_successes]; exact hcs

theorem announcedSpec_append_true (s f : Nat) (hf : 1 ≤ f) (t : List Bool) :
    AnnouncedSpec s f (t ++ [true]) ↔ AnnouncedSpec s f t ∨ s ≤ trailTrue t + 1 := by
  rw [announcedSpec_iff_trailTrue, announcedSpec_iff_trailTrue]
  constructor
  · rintro ⟨i, hi, hcs, hmax⟩
    simp only [List.length_append, List.length_cons, List.length_nil] at hi
    rcases Nat.lt_or_ge i (t.length + 1) with hlt | hge
    · have hile : i ≤ t.length := Nat.lt_succ_iff.mp hlt
      rw [List.take_append_of_le_length hile] at hcs
      rw [List.drop_append_of_le_length hile] at hmax
      exact Or.inl ⟨i, hile, hcs,
        lt_of_le_of_lt (maxFailRun_le_append_singleton _ _) hmax⟩
    · have hieq : i = t.length + 1 := le_antisymm (by omega) hge
      subst hieq
      rw [List.take_of_length_le (by simp), trailTrue_append_singleton] at hcs
      simp only [if_pos rfl] at hcs
      exact Or.inr (by simpa using hcs)
  · rintro (⟨i, hi, hcs, hmax⟩ | h)
    · refine ⟨i, by simp; omega, ?_, ?_⟩
      · rw [List.take_append_of_le_length hi]; exact hcs
      · rw [List.drop_append_of_le_length hi, maxFailRun_append_singleton]
        simpa using hmax
    · refine ⟨t.length + 1, by simp, ?_, ?_⟩
      · rw [List.take_of_length_le (by simp), trailTrue_append_singleton]
        simpa using h
      · rw [List.drop_of_length_le (by simp)]
        simpa [maxFailRun, failScan] using hf

theorem announcedSpec_append_false (s f : Nat) (hs : 1 ≤ s) (t : List Bool) :
    AnnouncedSpec s f (t ++ [false]) ↔ AnnouncedSpec s f t ∧ trailFalse t + 1 < f := by
  rw [announcedSpec_iff_trailTrue, announcedSpec_iff_trailTrue]
  constructor
  · rintro ⟨i, hi, hcs, hmax⟩
    simp only [List.length_append, List.length_cons, List.length_nil] at hi
    rcases Nat.lt_or_ge i (t.length + 1) with hlt | hge
    · have hile : i ≤ t.length := Nat.lt_succ_iff.mp hlt
      rw [List.take_append_of_le_length hile] at hcs
      rw [List.drop_append_of_le_length hile] at hmax
      have hdropmax : maxFailRun (t.drop i) < f :=
        lt_of_le_of_lt (maxFailRun_le_append_singleton _ _) hmax
      have htf : trailFalse (t.drop i) + 1 < f :=
        trailFalse_lt_of_maxFailRun_lt _ _ hmax
      have htz : trailFalse (t.take i) = 0 :=
        trailFalse_eq_zero_of_trailTrue_pos _ (le_trans hs hcs)
      have heq : trailFalse t = trailFalse (t.drop i) := by
        conv_lhs => rw [← List.take_append_drop i t]
        exact trailFalse_append_of_trailFalse_eq_zero _ _ htz
      exact ⟨⟨i, hile, hcs, hdropmax⟩, by rw [heq]; exact htf⟩
    · have hieq : i = t.length + 1 := le_antisymm (by omega) hge
      subst hieq
      rw [List.take_of_length_le (by simp), trailTrue_append_singleton] at hcs
      simp only [Bool.false_eq_true, if_false] at hcs
      omega
  · rintro ⟨⟨i, hi, hcs, hmax⟩, hlt⟩
    have htz : trailFalse (t.take i) = 0 :=
      trailFalse_eq_zero_of_trailTrue_pos _ (le_trans hs hcs)
    have heq : trailFalse t = trailFalse (t.drop i) := by
      conv_lhs => rw [← List.take_append_drop i t]
      exact trailFalse_append_of_trailFalse_eq_zero _ _ htz
    refine ⟨i, by simp; omega, ?_, ?_⟩
    · rw [List.take_append_of_le_length hi]; exact hcs
    · rw [List.drop_append_of_le_length hi, maxFailRun_append_singleton]
      simp only [Bool.false_eq_true, if_false]
      rw [heq] at hlt
      exact max_lt hmax hlt

/-- Complete characterisation of the reachable ANNOUNCED states of a
route, proved by reverse induction on the trace of probe results. -/
theorem run_route_announced_iff (s f : Nat) (hs : 1 ≤ s) (hf : 1 ≤ f)
    (t : List Bool) : (run s f t).route = .announced ↔ AnnouncedSpec s f t := by
  induction t using List.reverseRecOn with
  | nil =>
      constructor
      · intro h; rw [run_nil] at h; exact absurd h (by decide)
      · rintro ⟨i, hi, hcs, hmax⟩
        have hz : (run s f (List.take i ([] : List Bool))).consecutive_successes = 0 := by
          simp [run, initialState]
        omega
  | append_singleton t r ih =>
      rw [run_append_singleton]
      cases r with
      | true =>
          rw [announcedSpec_append_true s f hf t, ← ih]
          have hcs := run_consecutive_successes s f t
          cases hroute : (run s f t).route <;> simp [tick, hroute, hcs]
      | false =>
          rw [announcedSpec_append_false s f hs t, ← ih]
          have hcf := run_consecutive_failures s f t
          cases hroute : (run s f t).route <;> simp [tick, hroute, hcf]

/-- Transition WITHDRAWN -> ANNOUNCED occurs at 1-based tick `k + 1`
of trace `t`. -/
def announceTransAt (s f : Nat) (t : List Bool) (k : Nat) : Prop :=
  (run s f (t.take k)).route = .withdrawn ∧
  (run s f (t.take (k + 1))).route = .announced

/-- Transition ANNOUNCED -> WITHDRAWN occurs at 1-based tick `k + 1`
of trace `t`. -/
def withdrawTransAt (s f : Nat) (t : List Bool) (k : Nat) : Prop :=
  (run s f (t.take k)).route = .announced ∧
  (run s f (t.take (k + 1))).route = .withdrawn

instance (s f : Nat) (t : List Bool) (k : Nat) :
    Decidable (announceTransAt s f t k) := by
  unfold announceTransAt; exact instDecidableAnd

instance (s f : Nat) (t : List Bool) (k : Nat) :
    Decidable (withdrawTransAt s f t k) := by
  unfold withdrawTransAt; exact instDecidableAnd

/-- C1: on each tick, a success result increments consecutive_successes
and zeroes consecutive_failures, announcing the route exactly when the
state is WITHDRAWN and the updated counter reaches success_threshold; a
failure result increments consecutive_failures and zeroes
consecutive_successes, withdrawing exactly when the state is ANNOUNCED
and the updated counter reaches failure_threshold; in every other case
the state is unchanged while the counters are still updated. -/
theorem claim_C1_tick_rules (s f : Nat) (st : DebounceState) :
    ((tick s f st true).consecutive_successes = st.consecutive_successes + 1
      ∧ (tick s f st true).consecutive_failures = 0
      ∧ (st.route = .withdrawn → s ≤ st.consecutive_successes + 1 →
          (tick s f st true).route = .announced)
      ∧ (st.route = .withdrawn → st.consecutive_successes + 1 < s →
          (tick s f st true).route = st.route)
      ∧ (st.route = .announced → (tick s f st true).route = st.route))
    ∧ ((tick s f st false).consecutive_failures = st.consecutive_failures + 1
      ∧ (tick s f st false).consecutive_successes = 0
      ∧ (st.route = .announced → f ≤ st.consecutive_failures + 1 →
          (tick s f st false).route = .withdrawn)
      ∧ (st.route = .announced → st.consecutive_failures + 1 < f →
          (tick s f st false).route = st.route)
      ∧ (st.route = .withdrawn → (tick s f st false).route = st.route)) := by
  refine ⟨⟨rfl, rfl, ?_, ?_, ?_⟩, rfl, rfl, ?_, ?_, ?_⟩ <;>
    intros <;> simp_all [tick]

theorem claim_C1_tick_rules_witness :
    (tick 3 2 ⟨.withdrawn, 2, 0⟩ true).route = .announced :=
  (claim_C1_tick_rules 3 2 ⟨.withdrawn, 2, 0⟩).1.2.2.1 rfl (by decide)

/-- C2 counterexample: with success_threshold 1, on the trace
[success, success] the most recent success run at tick 2 has length
2 ≥ 1, yet no transition to ANNOUNCED occurs at tick 2 because the
route is already ANNOUNCED, so the claimed equivalence fails. -/
theorem claim_C2_counterexample :
    ¬ (announceTransAt 1 1 [true, true] 1 ↔
        1 ≤ trailTrue (List.take 2 [true, true])) := by
  decide

/-- C2 (amended): a transition to ANNOUNCED occurs at a tick iff the
state before the tick is WITHDRAWN and the most recent success run has
length ≥ success_threshold, and a transition to WITHDRAWN occurs iff
the state before the tick is ANNOUNCED and the most recent failure run
has length ≥ failure_threshold; in particular, with thresholds 3/2 the
trace [fail, fail, success, success, success] leaves the route
ANNOUNCED with exactly one announce command, emitted at tick 5. -/
theorem claim_C2_amended (s f : Nat) (hs : 1 ≤ s) (hf : 1 ≤ f) (t : List Bool) :
    (∀ k, k < t.length →
      (announceTransAt s f t k ↔
        (run s f (t.take k)).route = .withdrawn ∧ s ≤ trailTrue (t.take (k + 1)))
      ∧ (withdrawTransAt s f t k ↔
        (run s f (t.take k)).route = .announced ∧ f ≤ trailFalse (t.take (k + 1))))
    ∧ (run 3 2 [false, false, true, true, true]).route = .announced
    ∧ runCmds 3 2 [false, false, true, true, true] = [(5, CmdKind.announce)] := by
  refine ⟨?_, by decide, by decide⟩
  intro k hk
  have hx : t.take (k + 1) = t.take k ++ [t[k]] := by
    rw [List.take_succ, List.getElem?_eq_getElem hk]
    rfl
  have hrun1 : run s f (t.take (k + 1)) = tick s f (run s f (t.take k)) t[k] := by
    rw [hx, run_append_singleton]
  have htt : trailTrue (t.take (k + 1)) =
      if t[k] then trailTrue (t.take k) + 1 else 0 := by
    rw [hx, trailTrue_append_singleton]
  have htf : trailFalse (t.take (k + 1)) =
      if t[k] then 0 else trailFalse (t.take k) + 1 := by
    rw [hx, trailFalse_append_singleton]
  have hcs := run_consecutive_successes s f (t.take k)
  have hcf := run_consecutive_failures s f (t.take k)
  unfold announceTransAt withdrawTransAt
  rw [hrun1, htt, htf]
  constructor
  · cases hb : t[k] <;> cases hroute : (run s f (t.take k)).route <;>
      simp [tick, hroute, hcs] <;> try omega
  · cases hb : t[k] <;> cases hroute : (run s f (t.take k)).route <;>
      simp [tick, hroute, hcf] <;> try omega

theorem claim_C2_witness :
    (1 ≤ 1 ∧ 1 ≤ 1) ∧
    ((∀ k, k < ([true] : List Bool).length →
      (announceTransAt 1 1 [true] k ↔
        (run 1 1 (List.take k [true])).route = .withdrawn ∧
          1 ≤ trailTrue (List.take (k + 1) [true]))
      ∧ (withdrawTransAt 1 1 [true] k ↔
        (run 1 1 (List.take k [true])).route = .announced ∧
          1 ≤ trailFalse (List.take (k + 1) [true])))
    ∧ (run 3 2 [false, false, true, true, true]).route = .announced
    ∧ runCmds 3 2 [false, false, true, true, true] = [(5, CmdKind.announce)]) :=
  ⟨⟨by decide, by decide⟩, claim_C2_amended 1 1 (by decide) (by decide) [true]⟩

/-- C3 counterexample: with success_threshold 1 and failure_threshold
2, after [success, fail] the route is still ANNOUNCED (a single failure
is below the failure threshold) although a failure has been observed
since the success counter reached the threshold, so the literal
invariant fails. -/
theorem claim_C3_counterexample :
    (run 1 2 [true, false]).route = .announced ∧
      ¬ AnnouncedLiteral 1 2 [true, false] := by
  exact ⟨by decide, by decide⟩

/-- C3 (amended): at every reachable state, the route is ANNOUNCED iff
its consecutive_successes counter reached success_threshold after some
prefix of the trace and no run of failure_threshold consecutive
failures has occurred since; the initial state is WITHDRAWN and the
route is always in exactly one of the two defined states. -/
theorem claim_C3_amended (s f : Nat) (hs : 1 ≤ s) (hf : 1 ≤ f) (t : List Bool) :
    ((run s f t).route = .announced ↔ AnnouncedSpec s f t)
    ∧ (run s f []).route = .withdrawn
    ∧ ((run s f t).route = .withdrawn ∨ (run s f t).route = .announced) := by
  refine ⟨run_route_announced_iff s f hs hf t, rfl, ?_⟩
  cases hr : (run s f t).route
  · exact Or.inl rfl
  · exact Or.inr rfl

theorem claim_C3_witness :
    (1 ≤ 1 ∧ 1 ≤ 1) ∧
    (((run 1 1 [true]).route = .announced ↔ AnnouncedSpec 1 1 [true])
    ∧ (run 1 1 []).route = .withdrawn
    ∧ ((run 1 1 [true]).route = .withdrawn ∨ (run 1 1 [true]).route = .announced)) :=
  ⟨⟨by decide, by decide⟩, claim_C3_amended 1 1 (by decide) (by decide) [true]⟩

/-- C4: on every tick a command is emitted iff the DebounceStateMachine
reports an actual state transition; a tick whose evaluated state equals
the previous state emits no command. -/
theorem claim_C4_cmd_iff_transition (s f : Nat) (st : DebounceState) (r : Bool) :
    ((tickCmd s f st r).isSome = true ↔ (tick s f st r).route ≠ st.route)
    ∧ ((tick s f st r).route = st.route → tickCmd s f st r = none) := by
  constructor
  · cases hroute : st.route <;> cases hroute2 : (tick s f st r).route <;>
      simp [tickCmd, hroute, hroute2]
  · intro h
    cases hroute : st.route <;> rw [hroute] at h <;> simp [tickCmd, hroute, h]

theorem claim_C4_witness :
    tickCmd 3 2 ⟨.withdrawn, 0, 0⟩ true = none :=
  (claim_C4_cmd_iff_transition 3 2 ⟨.withdrawn, 0, 0⟩ true).2 (by decide)

/-- Process-lifetime state of the ControlLoop (spec section 4.4). -/
inductive LoopState where
  | running
  | draining
  | stopped
deriving DecidableEq

/-- A configured route: CIDR (address + mask) and whether the next hop
is the local host.  Immutable, supplied by configuration. -/
structure RouteSpec where
  cidr : String
  next_hop_is_self : Bool
deriving DecidableEq

/-- Modelled from the spec: the DRAINING phase of the ControlLoop
(section 4.4); the ober implementation module is absent from src/.
For every route currently ANNOUNCED a withdraw command is issued,
regardless of current health; a route already WITHDRAWN emits no
command. -/
def drainCmds (routes : List (RouteSpec × RouteState)) : List (RouteSpec × CmdKind) :=
  routes.filterMap fun p =>
    if p.2 = .announced then some (p.1, CmdKind.withdraw) else none

/-- Outcome of the shutdown sequence: the commands written during
DRAINING, the final loop state and the process exit code. -/
structure ShutdownOutcome where
  emitted : List (RouteSpec × CmdKind)
  final : LoopState
  exitCode : Nat

/-- Modelled from the spec: after a termination signal the loop drains
every ANNOUNCED route, moves to STOPPED and exits with code 0
(sections 4.4 and 6). -/
def shutdown (routes : List (RouteSpec × RouteState)) : ShutdownOutcome :=
  { emitted := drainCmds routes, final := .stopped, exitCode := 0 }

theorem shutdown_emitted (routes : List (RouteSpec × RouteState)) :
    (shutdown routes).emitted = drainCmds routes := rfl

theorem drainCmds_cons (p : RouteSpec × RouteState)
    (rest : List (RouteSpec × RouteState)) :
    drainCmds (p :: rest) =
      (if p.2 = .announced then [(p.1, CmdKind.withdraw)] else []) ++ drainCmds rest := by
  by_cases h : p.2 = .announced <;> simp [drainCmds, h]

theorem fst_mem_of_mem_drainCmds (routes : List (RouteSpec × RouteState))
    (c : RouteSpec × CmdKind) (h : c ∈ drainCmds routes) :
    c.1 ∈ routes.map Prod.fst := by
  induction routes with
  | nil => simp [drainCmds] at h
  | cons p rest ih =>
      rw [drainCmds_cons] at h
      rcases List.mem_append.mp h with h1 | h2
      · by_cases hp : p.2 = .announced
        · rw [if_pos hp] at h1
          simp only [List.mem_singleton] at h1
          simp [h1]
        · rw [if_neg hp] at h1
          simp at h1
      · simp [ih h2]

theorem snd_eq_withdraw_of_mem_drainCmds (routes : List (RouteSpec × RouteState))
    (c : RouteSpec × CmdKind) (h : c ∈ drainCmds routes) :
    c.2 = CmdKind.withdraw := by
  induction routes with
  | nil => simp [drainCmds] at h
  | cons p rest ih =>
      rw [drainCmds_cons] at h
      rcases List.mem_append.mp h with h1 | h2
      · by_cases hp : p.2 = .announced
        · rw [if_pos hp] at h1
          simp only [List.mem_singleton] at h1
          simp [h1]
        · rw [if_neg hp] at h1
          simp at h1
      · exact ih h2

theorem drainCmds_count (routes : List (RouteSpec × RouteState))
    (hnd : (routes.map Prod.fst).Nodup) (spec : RouteSpec) (st : RouteState)
    (hmem : (spec, st) ∈ routes) :
    (drainCmds routes).count (spec, CmdKind.withdraw) =
      if st = .announced then 1 else 0 := by
  induction routes with
  | nil => simp at hmem
  | cons p rest ih =>
      obtain ⟨a, b⟩ := p
      rw [drainCmds_cons, List.count_append]
      simp only [List.map_cons, List.nodup_cons] at hnd
      rcases List.mem_cons.mp hmem with heq | hmem2
      · obtain ⟨ha, hb⟩ := Prod.mk.injEq .. ▸ heq
        subst ha
        subst hb
        have hz : (drainCmds rest).count (spec, CmdKind.withdraw) = 0 := by
          rw [List.count_eq_zero]
          intro hmem3
          exact hnd.1 (fst_mem_of_mem_drainCmds rest _ hmem3)
        by_cases hb2 : st = .announced <;> simp [hb2, hz]
      · have hspec : spec ∈ rest.map Prod.fst := by
          have := List.mem_map_of_mem Prod.fst hmem2
          simpa using this
        have hne : spec ≠ a := fun h => hnd.1 (h ▸ hspec)
        have hz : ((if b = RouteState.announced then [(a, CmdKind.withdraw)] else []).count
            (spec, CmdKind.withdraw)) = 0 := by
          by_cases hb2 : b = .announced <;> simp [hb2, hne]
        rw [hz, ih hnd.2 hmem2, Nat.zero_add]

/-- C5: entering DRAINING after a termination signal emits exactly one
withdraw command for every ANNOUNCED route (regardless of health),
emits nothing for WITHDRAWN routes, emits only withdraw commands, then
moves to STOPPED and exits with code 0. -/
theorem claim_C5_drain (routes : List (RouteSpec × RouteState))
    (hnd : (routes.map Prod.fst).Nodup) :
    (∀ p ∈ routes, p.2 = .announced →
      (shutdown routes).emitted.count (p.1, CmdKind.withdraw) = 1)
    ∧ (∀ p ∈ routes, p.2 = .withdrawn →
      ∀ k, (p.1, k) ∉ (shutdown routes).emitted)
    ∧ (∀ c ∈ (shutdown routes).emitted, c.2 = CmdKind.withdraw)
    ∧ (shutdown routes).final = .stopped
    ∧ (shutdown routes).exitCode = 0 := by
  refine ⟨?_, ?_, ?_, rfl, rfl⟩
  · intro p hp hann
    obtain ⟨a, b⟩ := p
    rw [shutdown_emitted, drainCmds_count routes hnd a b hp]
    exact if_pos hann
  · intro p hp hwd k hmem
    obtain ⟨a, b⟩ := p
    rw [shutdown_emitted] at hmem
    cases k with
    | withdraw =>
        have hcount := drainCmds_count routes hnd a b hp
        have hwd2 : b = .withdrawn := hwd
        rw [hwd2, if_neg (by decide : ¬ (RouteState.withdrawn = RouteState.announced))]
          at hcount
        rw [List.count_eq_zero] at hcount
        exact hcount hmem
    | announce =>
        have h2 := snd_eq_withdraw_of_mem_drainCmds routes _ hmem
        simp at h2
  · intro c hc
    rw [shutdown_emitted] at hc
    exact snd_eq_withdraw_of_mem_drainCmds routes c hc

/-- Concrete two-route configuration used to witness the shutdown
claim: one route ANNOUNCED, one WITHDRAWN. -/
def sampleRoutes : List (RouteSpec × RouteState) :=
  [({ cidr := "10.0.100.1/32", next_hop_is_self := true }, .announced),
   ({ cidr := "10.0.200.1/32", next_hop_is_self := true }, .withdrawn)]

theorem claim_C5_witness :
    (sampleRoutes.map Prod.fst).Nodup ∧
    ((∀ p ∈ sampleRoutes, p.2 = .announced →
      (shutdown sampleRoutes).emitted.count (p.1, CmdKind.withdraw) = 1)
    ∧ (∀ p ∈ sampleRoutes, p.2 = .withdrawn →
      ∀ k, (p.1, k) ∉ (shutdown sampleRoutes).emitted)
    ∧ (∀ c ∈ (shutdown sampleRoutes).emitted, c.2 = CmdKind.withdraw)
    ∧ (shutdown sampleRoutes).final = .stopped
    ∧ (shutdown sampleRoutes).exitCode = 0) :=
  ⟨by decide, claim_C5_drain sampleRoutes (by decide)⟩

/-- Possible outcomes of one bounded-time health request: a response
with an HTTP status code, a connection failure, or expiry of the
probe timeout. -/
inductive ProbeOutcome where
  | response (status : Nat)
  | connectionFailure
  | timeoutExpiry
deriving DecidableEq

/-- Detail carried by a health check result: the observed status code
or an error description. -/
inductive ProbeDetail where
  | status (code : Nat)
  | error (msg : String)
deriving DecidableEq

/-- HealthCheckResult (spec section 3): {success, detail}. The
timestamp field carries no state-machine content and is omitted. -/
structure HealthCheckResult where
  success : Bool
  detail : ProbeDetail
deriving DecidableEq

/-- Modelled from the spec: HealthProbe.check (sections 4.1 and 6); the
ober implementation module is absent from src/.  A response in the
200-299 range is success; any other status code, a connection failure,
or timeout expiry yields a structured failure result.  The probe is a
total function: it never raises an error to its caller. -/
def check (o : ProbeOutcome) : HealthCheckResult :=
  match o with
  | .response code =>
      { success := decide (200 ≤ code ∧ code ≤ 299), detail := .status code }
  | .connectionFailure => { success := false, detail := .error "connection failure" }
  | .timeoutExpiry => { success := false, detail := .error "timeout expired" }

/-- C6: a health-check invocation succeeds iff the HTTP response status
code is in the 200-299 range; any other code and any absence of a
response within the timeout yields a failure result. -/
theorem claim_C6_success_iff_2xx (o : ProbeOutcome) :
    (check o).success = true ↔
      ∃ code, o = .response code ∧ 200 ≤ code ∧ code ≤ 299 := by
  cases o <;> simp [check]

/-- C8: the health probe is total and uniform over failure kinds: every
input yields a structured result, and the result is a failure exactly
for a non-2xx status code, a connection failure, or timeout expiry. -/
theorem claim_C8_uniform_failure (o : ProbeOutcome) :
    (check o).success = false ↔
      (o = .connectionFailure ∨ o = .timeoutExpiry ∨
        ∃ code, o = .response code ∧ (code < 200 ∨ 299 < code)) := by
  cases o <;> simp [check] <;> omega

/-- The CIDR emitted for a bare VIP address: the /32 host route. -/
def toCidr (address : String) : String := address ++ "/32"

/-- Modelled from the spec: RouteAnnouncer.announce (section 4.3) and
the _announce_route helper exercised by
src/tests/test_commands.py::TestHealthCommand; the ober implementation
module is absent from src/.  One call writes exactly one command line
to the command channel and nothing else. -/
def announceOutput (address : String) : List String :=
  ["announce route " ++ toCidr address ++ " next-hop self"]

/-- Modelled from the spec: RouteAnnouncer.withdraw (section 4.3) and
the _withdraw_route helper exercised by
src/tests/test_commands.py::TestHealthCommand; the ober implementation
module is absent from src/. -/
def withdrawOutput (address : String) : List String :=
  ["withdraw route " ++ toCidr address ++ " next-hop self"]

/-- C7: each announce and each withdraw produces exactly one command
line of the exact form `announce route <cidr> next-hop self` or
`withdraw route <cidr> next-hop self`, with nothing else on the
command channel; for the route 10.0.100.1 the emitted CIDR is
10.0.100.1/32. -/
theorem claim_C7_command_lines (address : String) :
    announceOutput address = ["announce route " ++ address ++ "/32 next-hop self"]
    ∧ withdrawOutput address = ["withdraw route " ++ address ++ "/32 next-hop self"]
    ∧ (announceOutput address).length = 1
    ∧ (withdrawOutput address).length = 1
    ∧ announceOutput "10.0.100.1" = ["announce route 10.0.100.1/32 next-hop self"]
    ∧ withdrawOutput "10.0.100.1" = ["withdraw route 10.0.100.1/32 next-hop self"] := by
  refine ⟨?_, ?_, rfl, rfl, rfl, rfl⟩ <;>
    simp [announceOutput, withdrawOutput, toCidr, String.append_assoc]

/-- BGP settings of the ober configuration, with the defaults asserted
by src/tests/test_config.py::TestBGPConfig. -/
structure BGPConfig where
  local_as : Nat := 65001
  peer_as : Nat := 65000
  neighbors : List String := []
  hold_time : Nat := 3
  bfd_enabled : Bool := true
deriving DecidableEq

/-- One virtual IP entry of the ober configuration. -/
structure VIPConfig where
  address : String := ""
  interface : String := "lo-vip"
deriving DecidableEq

/-- One backend entry of the ober configuration. -/
structure BackendConfig where
  name : String := ""
  servers : List String := []
  health_check_path : String := "/"
  health_check_interval : Nat := 1000
deriving DecidableEq

/-- Certificate settings of the ober configuration. -/
structure CertConfig where
  path : String := ""
deriving DecidableEq

/-- Modelled from the spec: the ober.config.OberConfig data (the
configuration loader of section 6 is declared out of scope by the spec
and the ober.config module is absent from src/); fields and defaults
follow src/tests/test_config.py::TestOberConfig. -/
structure OberConfig where
  bgp : BGPConfig := {}
  vips : List VIPConfig := []
  backends : List BackendConfig := []
  certs : CertConfig := {}
  log_retention_days : Nat := 7
  stats_port : Nat := 8404
deriving DecidableEq

/-- Structured document values as stored in the serialized YAML
configuration file. -/
inductive ConfValue where
  | str (v : String)
  | nat (v : Nat)
  | bool (v : Bool)
  | seq (vs : List ConfValue)
  | dict (fields : List (String × ConfValue))

/-- First value bound to a key in an association list of fields. -/
def findField : List (String × ConfValue) → String → Option ConfValue
  | [], _ => none
  | (k, v) :: rest, key => if k = key then some v else findField rest key

def getStr (fs : List (String × ConfValue)) (key d : String) : String :=
  match findField fs key with
  | some (.str x) => x
  | _ => d

def getNat (fs : List (String × ConfValue)) (key : String) (d : Nat) : Nat :=
  match findField fs key with
  | some (.nat x) => x
  | _ => d

def getBool (fs : List (String × ConfValue)) (key : String) (d : Bool) : Bool :=
  match findField fs key with
  | some (.bool x) => x
  | _ => d

/-- Extract the string payload of a document value, if any. -/
def strOf (v : ConfValue) : Option String :=
  match v with
  | .str x => some x
  | _ => none

def getStrList (fs : List (String × ConfValue)) (key : String) : List String :=
  match findField fs key with
  | some (.seq vs) => vs.filterMap strOf
  | _ => []

theorem filterMap_strOf_map_str (xs : List String) :
    (xs.map ConfValue.str).filterMap strOf = xs := by
  induction xs with
  | nil => rfl
  | cons a rest ih => simp [List.filterMap_cons, strOf, ih]

theorem filterMap_strOf_comp_str (xs : List String) :
    List.filterMap (strOf ∘ ConfValue.str) xs = xs := by
  induction xs with
  | nil => rfl
  | cons a rest ih => simp [List.filterMap_cons, Function.comp, strOf, ih]

def encodeBGP (c : BGPConfig) : ConfValue :=
  .dict [("local_as", .nat c.local_as), ("peer_as", .nat c.peer_as),
         ("neighbors", .seq (c.neighbors.map .str)),
         ("hold_time", .nat c.hold_time), ("bfd_enabled", .bool c.bfd_enabled)]

def decodeBGP (v : ConfValue) : BGPConfig :=
  match v with
  | .dict fs =>
      { local_as := getNat fs "local_as" 65001
        peer_as := getNat fs "peer_as" 65000
        neighbors := getStrList fs "neighbors"
        hold_time := getNat fs "hold_time" 3
        bfd_enabled := getBool fs "bfd_enabled" true }
  | _ => {}

def encodeVIP (v : VIPConfig) : ConfValue :=
  .dict [("address", .str v.address), ("interface", .str v.interface)]

def decodeVIP (cv : ConfValue) : VIPConfig :=
  match cv with
  | .dict fs =>
      { address := getStr fs "address" ""
        interface := getStr fs "interface" "lo-vip" }
  | _ => {}

def encodeBackend (b : BackendConfig) : ConfValue :=
  .dict [("name", .str b.name), ("servers", .seq (b.servers.map .str)),
         ("health_check_path", .str b.health_check_path),
         ("health_check_interval", .nat b.health_check_interval)]

def decodeBackend (cv : ConfValue) : BackendConfig :=
  match cv with
  | .dict fs =>
      { name := getStr fs "name" ""
        servers := getStrList fs "servers"
        health_check_path := getStr fs "health_check_path" "/"
        health_check_interval := getNat fs "health_check_interval" 1000 }
  | _ => {}

def encodeCert (c : CertConfig) : ConfValue :=
  .dict [("path", .str c.path)]

def decodeCert (cv : ConfValue) : CertConfig :=
  match cv with
  | .dict fs => { path := getStr fs "path" "" }
  | _ => {}

def encodeOber (c : OberConfig) : ConfValue :=
  .dict [("bgp", encodeBGP c.bgp),
         ("vips", .seq (c.vips.map encodeVIP)),
         ("backends", .seq (c.backends.map encodeBackend)),
         ("certs", encodeCert c.certs),
         ("log_retention_days", .nat c.log_retention_days),
         ("stats_port", .nat c.stats_port)]

def decodeOber (v : ConfValue) : OberConfig :=
  match v with
  | .dict fs =>
      { bgp :=
          match findField fs "bgp" with
          | some bv => decodeBGP bv
          | none => {}
        vips :=
          match findField fs "vips" with
          | some (.seq vs) => vs.map decodeVIP
          | _ => []
        backends :=
          match findField fs "backends" with
          | some (.seq vs) => vs.map decodeBackend
          | _ => []
        certs :=
          match findField fs "certs" with
          | some cv => decodeCert cv
          | none => {}
        log_retention_days := getNat fs "log_retention_days" 7
        stats_port := getNat fs "stats_port" 8404 }
  | _ => {}

/-- The persisted file system as seen by the configuration code:
a mapping from paths to parsed configuration documents. -/
abbrev FileStore := List (String × ConfValue)

/-- Modelled from the spec: OberConfig.save writes the serialized
configuration to the given path (contract taken from
src/tests/test_config.py::TestOberConfig.test_save_and_load; the
ober.config module is absent from src/). -/
def save (c : OberConfig) (path : String) (store : FileStore) : FileStore :=
  (path, encodeOber c) :: store

/-- Modelled from the spec: OberConfig.load reads and parses the
configuration at the given path, returning the default configuration
when no file exists there (contract taken from
src/tests/test_config.py::TestOberConfig.test_load_nonexistent; the
ober.config module is absent from src/). -/
def load (path : String) (store : FileStore) : OberConfig :=
  match findField store path with
  | some v => decodeOber v
  | none => {}

theorem decodeBGP_encodeBGP (c : BGPConfig) : decodeBGP (encodeBGP c) = c := by
  simp [decodeBGP, encodeBGP, getNat, getBool, getStrList, findField,
    filterMap_strOf_map_str, filterMap_strOf_comp_str]

theorem decodeVIP_encodeVIP (v : VIPConfig) : decodeVIP (encodeVIP v) = v := by
  simp [decodeVIP, encodeVIP, getStr, findField]

theorem decodeBackend_encodeBackend (b : BackendConfig) :
    decodeBackend (encodeBackend b) = b := by
  simp [decodeBackend, encodeBackend, getStr, getNat, getStrList, findField,
    filterMap_strOf_map_str, filterMap_strOf_comp_str]

theorem decodeCert_encodeCert (c : CertConfig) : decodeCert (encodeCert c) = c := by
  simp [decodeCert, encodeCert, getStr, findField]

theorem decodeOber_encodeOber (c : OberConfig) : decodeOber (encodeOber c) = c := by
  have hv : ∀ xs : List VIPConfig, (xs.map encodeVIP).map decodeVIP = xs := by
    intro xs
    induction xs with
    | nil => rfl
    | cons a rest ih => simp [ih, decodeVIP_encodeVIP]
  have hb : ∀ xs : List BackendConfig,
      (xs.map encodeBackend).map decodeBackend = xs := by
    intro xs
    induction xs with
    | nil => rfl
    | cons a rest ih => simp [ih, decodeBackend_encodeBackend]
  simp [decodeOber, encodeOber, getNat, findField, decodeBGP_encodeBGP,
    decodeCert_encodeCert, hv, hb]

/-- C9: saving a configuration and loading it back from the same path
returns a configuration whose fields (BGP settings, VIPs, backends,
cert path, log_retention_days, stats_port) all equal those saved. -/
theorem claim_C9_save_load_roundtrip (c : OberConfig) (path : String)
    (store : FileStore) :
    (load path (save c path store)).bgp = c.bgp
    ∧ (load path (save c path store)).vips = c.vips
    ∧ (load path (save c path store)).backends = c.backends
    ∧ (load path (save c path store)).certs = c.certs
    ∧ (load path (save c path store)).log_retention_days = c.log_retention_days
    ∧ (load path (save c path store)).stats_port = c.stats_port := by
  have h : load path (save c path store) = c := by
    simp [load, save, findField, decodeOber_encodeOber]
  rw [h]
  exact ⟨rfl, rfl, rfl, rfl, rfl, rfl⟩

/-- C10: loading from a path where no configuration file exists does
not fail: it returns the default configuration, whose bgp.local_as is
65001. -/
theorem claim_C10_load_missing_default (path : String) (store : FileStore)
    (h : findField store path = none) :
    load path store = ({} : OberConfig)
    ∧ (load path store).bgp.local_as = 65001 := by
  constructor <;> simp [load, h]

theorem claim_C10_witness :
    findField ([] : FileStore) "/nonexistent/path/config.yaml" = none ∧
    (load "/nonexistent/path/config.yaml" ([] : FileStore) = ({} : OberConfig)
    ∧ (load "/nonexistent/path/config.yaml" ([] : FileStore)).bgp.local_as = 65001) :=
  ⟨rfl, claim_C10_load_missing_default "/nonexistent/path/config.yaml" [] rfl⟩

end HerrOber
